import Mathlib

/-!
# Verification of the daily-inspo idea service

Shallow embedding of the repository's core logic:

* `app/database.py` — the filter/pagination query builder
  (`get_ideas_with_filters`, `count_ideas_with_filters`, `get_idea_by_id`),
* `scripts/generate_idea.py` — the generation pipeline
  (`parse_claude_response`, `validate_idea_structure`,
  `store_idea_in_database`, `retry_generation`, `main`),
* `app/api/ideas.py` — the idea-card endpoints and summary truncation,
* `app/api/chat.py` — the assistant-reply path (`call_claude_cli`).

Python `dict`s carrying JSON are embedded as a `Json` inductive, SQLite rows
as structures, and the external world (filesystem, subprocess, database
lock state) as explicit oracle parameters.
-/

set_option maxRecDepth 4000

/-! ## JSON values and Python truthiness

`json.loads` results.  Numbers keep their lexeme (the claims never depend on
numeric value, only on truthiness); objects keep their field list in source
order, and lookup takes the last binding, as a Python dict built from
repeated keys would.
-/

inductive Json where
  | null
  | bool (b : Bool)
  | num (lexeme : String)
  | str (s : String)
  | arr (elems : List Json)
  | obj (fields : List (String × Json))
deriving Repr

/-- Lookup in a JSON object, last binding wins (Python dict semantics). -/
def jlookup (fields : List (String × Json)) (k : String) : Option Json :=
  ((fields.filter (fun p => p.1 == k)).map (fun p => p.2)).getLast?

/-- Whether a numeric lexeme denotes zero: every mantissa digit is 0. -/
def numLexemeIsZero (s : String) : Bool :=
  ((s.data.takeWhile (fun c => c ≠ 'e' ∧ c ≠ 'E')).filter Char.isDigit).all
    (fun c => c = '0')

/-- Python truthiness of a decoded JSON value (`if not idea_data[field]`). -/
def jtruthy : Json → Bool
  | .null => false
  | .bool b => b
  | .num s => !numLexemeIsZero s
  | .str s => !(s == "")
  | .arr xs => !xs.isEmpty
  | .obj fs => !fs.isEmpty

/-- Python `len` on a JSON value: strings by code point, arrays by element,
objects by distinct key; `len` of null/bool/number raises (`none`). -/
def jlen : Json → Option Nat
  | .str s => some s.length
  | .arr xs => some xs.length
  | .obj fs => some ((fs.map (fun p => p.1)).dedup.length)
  | _ => none

/-! ## The JSON parser (`json.loads`)

Recursive-descent, fuelled.  Mirrors Python's strict decoder: the four JSON
whitespace characters, `true`/`false`/`null`, strings with the standard
escapes (raw control characters rejected; `\uXXXX` must name a valid scalar
value), numbers per the JSON grammar (lexeme kept), arrays and objects; a
document must be consumed in full ("Extra data" otherwise).
-/

def jsonWs (c : Char) : Bool :=
  c = ' ' ∨ c = '\t' ∨ c = '\n' ∨ c = '\r'

def skipWs (l : List Char) : List Char := l.dropWhile jsonWs

def hexVal (c : Char) : Option Nat :=
  if '0' ≤ c ∧ c ≤ '9' then some (c.toNat - '0'.toNat)
  else if 'a' ≤ c ∧ c ≤ 'f' then some (c.toNat - 'a'.toNat + 10)
  else if 'A' ≤ c ∧ c ≤ 'F' then some (c.toNat - 'A'.toNat + 10)
  else none

/-- Parse the body of a string literal (opening quote already consumed). -/
def pString : List Char → Option (String × List Char)
  | [] => none
  | '"' :: rest => some ("", rest)
  | '\\' :: esc =>
    match esc with
    | '"' :: r => (pString r).map (fun p => (⟨'"' :: p.1.data⟩, p.2))
    | '\\' :: r => (pString r).map (fun p => (⟨'\\' :: p.1.data⟩, p.2))
    | '/' :: r => (pString r).map (fun p => (⟨'/' :: p.1.data⟩, p.2))
    | 'b' :: r => (pString r).map (fun p => (⟨'\x08' :: p.1.data⟩, p.2))
    | 'f' :: r => (pString r).map (fun p => (⟨'\x0c' :: p.1.data⟩, p.2))
    | 'n' :: r => (pString r).map (fun p => (⟨'\n' :: p.1.data⟩, p.2))
    | 'r' :: r => (pString r).map (fun p => (⟨'\r' :: p.1.data⟩, p.2))
    | 't' :: r => (pString r).map (fun p => (⟨'\t' :: p.1.data⟩, p.2))
    | 'u' :: a :: b :: c :: d :: r =>
      match hexVal a, hexVal b, hexVal c, hexVal d with
      | some ha, some hb, some hc, some hd =>
        let n := ((ha * 16 + hb) * 16 + hc) * 16 + hd
        if n.isValidChar then
          (pString r).map (fun p => (⟨Char.ofNat n :: p.1.data⟩, p.2))
        else none
      | _, _, _, _ => none
    | _ => none
  | c :: rest =>
    if c.toNat < 32 then none
    else (pString rest).map (fun p => (⟨c :: p.1.data⟩, p.2))

/-- Parse a number lexeme: `-? (0 | [1-9][0-9]*) (. [0-9]+)? ([eE][+-]?[0-9]+)?`. -/
def pNumber (l : List Char) : Option (String × List Char) :=
  let (sign, l1) : List Char × List Char :=
    match l with
    | '-' :: r => (['-'], r)
    | _ => ([], l)
  match l1 with
  | [] => none
  | c :: _ =>
    if ¬ c.isDigit then none
    else
      let (intPart, l2) : List Char × List Char :=
        if c = '0' then (['0'], l1.tail)
        else (l1.takeWhile Char.isDigit, l1.dropWhile Char.isDigit)
      let (fracPart, l3) : List Char × Option (List Char) :=
        match l2 with
        | '.' :: r =>
          let ds := r.takeWhile Char.isDigit
          if ds.isEmpty then ([], none)
          else ('.' :: ds, some (r.dropWhile Char.isDigit))
        | _ => ([], some l2)
      match l3 with
      | none => none
      | some l3v =>
        let (expPart, l4) : List Char × Option (List Char) :=
          match l3v with
          | e :: r =>
            if e = 'e' ∨ e = 'E' then
              let (es, r2) : List Char × List Char :=
                match r with
                | s :: r3 => if s = '+' ∨ s = '-' then ([s], r3) else ([], r)
                | [] => ([], r)
              let ds := r2.takeWhile Char.isDigit
              if ds.isEmpty then ([], none)
              else (e :: (es ++ ds), some (r2.dropWhile Char.isDigit))
            else ([], some l3v)
          | [] => ([], some l3v)
        match l4 with
        | none => none
        | some l4v => some (⟨sign ++ intPart ++ fracPart ++ expPart⟩, l4v)

mutual

/-- Parse one JSON value. -/
def pValue : Nat → List Char → Option (Json × List Char)
  | 0, _ => none
  | fuel + 1, l =>
    match skipWs l with
    | [] => none
    | '{' :: r =>
      (match skipWs r with
       | '}' :: r2 => some (.obj [], r2)
       | _ => pMembers fuel r [])
    | '[' :: r =>
      (match skipWs r with
       | ']' :: r2 => some (.arr [], r2)
       | _ => pElems fuel r [])
    | '"' :: r => (pString r).map (fun p => (.str p.1, p.2))
    | 't' :: 'r' :: 'u' :: 'e' :: r => some (.bool true, r)
    | 'f' :: 'a' :: 'l' :: 's' :: 'e' :: r => some (.bool false, r)
    | 'n' :: 'u' :: 'l' :: 'l' :: r => some (.null, r)
    | c :: r =>
      if c = '-' ∨ c.isDigit then
        (pNumber (c :: r)).map (fun p => (.num p.1, p.2))
      else none

/-- Parse the members of an object (after `{`, at least one member). -/
def pMembers : Nat → List Char → List (String × Json) →
    Option (Json × List Char)
  | 0, _, _ => none
  | fuel + 1, l, acc =>
    match skipWs l with
    | '"' :: r =>
      match pString r with
      | none => none
      | some (k, r2) =>
        match skipWs r2 with
        | ':' :: r3 =>
          match pValue fuel r3 with
          | none => none
          | some (v, r4) =>
            match skipWs r4 with
            | ',' :: r5 => pMembers fuel r5 (acc ++ [(k, v)])
            | '}' :: r5 => some (.obj (acc ++ [(k, v)]), r5)
            | _ => none
        | _ => none
    | _ => none

/-- Parse the elements of an array (after `[`, at least one element). -/
def pElems : Nat → List Char → List Json → Option (Json × List Char)
  | 0, _, _ => none
  | fuel + 1, l, acc =>
    match pValue fuel l with
    | none => none
    | some (v, r) =>
      match skipWs r with
      | ',' :: r2 => pElems fuel r2 (acc ++ [v])
      | ']' :: r2 => some (.arr (acc ++ [v]), r2)
      | _ => none

end

/-- `json.loads` on a character list: one document, fully consumed. -/
def jsonParseChars (l : List Char) : Option Json :=
  match pValue (l.length + 1) l with
  | some (v, rest) => if (skipWs rest).isEmpty then some v else none
  | none => none

/-- `json.loads` on a string. -/
def jsonParse (s : String) : Option Json := jsonParseChars s.data

/-! ## `parse_claude_response` (scripts/generate_idea.py 161–197)

`response.strip()`, then `start_idx = response.find('{')`,
`end_idx = response.rfind('}') + 1`; the slice `response[start_idx:end_idx]`
goes to `json.loads`; any failure (no brace, crossed indices — which make the
slice empty — or a decode error) returns `None`.  On character lists the
slice from the first `{` through the last `}` is: drop the prefix before the
first `{`, then drop the tail after the last `}`; every degenerate case
leaves a list `json.loads` rejects, exactly as the Python slice does.
-/

/-- `str.strip()`: drop leading and trailing whitespace. -/
def trimChars (l : List Char) : List Char :=
  (l.dropWhile Char.isWhitespace).rdropWhile Char.isWhitespace

/-- `str.strip()` on a string. -/
def pyStrip (s : String) : String := ⟨trimChars s.data⟩

/-- The span from the first `{` through the last `}` (empty when absent). -/
def braceSpan (l : List Char) : List Char :=
  (l.dropWhile (fun c => c ≠ '{')).rdropWhile (fun c => c ≠ '}')

def parseClaudeResponseChars (l : List Char) : Option Json :=
  jsonParseChars (braceSpan (trimChars l))

/-- `parse_claude_response` from scripts/generate_idea.py. -/
def parse_claude_response (response : String) : Option Json :=
  parseClaudeResponseChars response.data

/-- The spec's words for step 4: "Extract the first balanced `{...}` span
from the assistant's raw output and parse it as a JSON document."  Stated
for comparison with `parse_claude_response`; scans for the first `{` and
takes characters up to the brace-depth-matching `}`. -/
def firstBalancedSpan (l : List Char) : Option (List Char) :=
  match l.dropWhile (fun c => c ≠ '{') with
  | [] => none
  | c :: rest => spanFrom rest [c] 1
where
  spanFrom : List Char → List Char → Nat → Option (List Char)
    | [], _, _ => none
    | c :: rest, acc, depth =>
      if c = '}' then
        if depth = 1 then some (acc ++ [c]) else spanFrom rest (acc ++ [c]) (depth - 1)
      else if c = '{' then spanFrom rest (acc ++ [c]) (depth + 1)
      else spanFrom rest (acc ++ [c]) depth

/-- Parsing per the spec's words: first balanced span, then `json.loads`. -/
def specParseResponse (s : String) : Option Json :=
  (firstBalancedSpan (trimChars s.data)).bind jsonParseChars

/-! ## `validate_idea_structure` (scripts/generate_idea.py 200–253)

Required fields present and truthy; `tags` a non-empty list of objects each
carrying `category` and `value`; `market_analysis` an object; `len(title)`
at most 200 and `len(summary)` at most 500 (a `len`-less value raises,
which the function catches and turns into `False`).
-/

def requiredIdeaFields : List String :=
  ["title", "summary", "description", "supporting_logic", "tags", "market_analysis"]

def isTagObject : Json → Bool
  | .obj fs => fs.any (fun p => p.1 == "category") && fs.any (fun p => p.1 == "value")
  | _ => false

def lenAtMost (j : Option Json) (bound : Nat) : Bool :=
  match j with
  | some v =>
    match jlen v with
    | some n => n ≤ bound
    | none => false
  | none => false

/-- `validate_idea_structure` from scripts/generate_idea.py. -/
def validate_idea_structure (j : Json) : Bool :=
  match j with
  | .obj fields =>
    requiredIdeaFields.all (fun f =>
      match jlookup fields f with
      | some v => jtruthy v
      | none => false) &&
    (match jlookup fields "tags" with
     | some (.arr tags) => !tags.isEmpty && tags.all isTagObject
     | _ => false) &&
    (match jlookup fields "market_analysis" with
     | some (.obj _) => true
     | _ => false) &&
    lenAtMost (jlookup fields "title") 200 &&
    lenAtMost (jlookup fields "summary") 500
  | _ => false

/-! ## The relational store (app/database.py)

Rows of the `ideas`, `tags`, `idea_tags` and `market_data` tables.
`generated_date` is embedded as an integer timestamp: the stored ISO text
compares chronologically, so `≤` on integers models SQLite's comparison.
-/

structure Tag where
  category : String
  value : String
deriving Repr, DecidableEq

structure IdeaRow where
  id : Nat
  title : String
  summary : String
  description : String
  supporting_logic : String
  generated_date : Int
deriving Repr, DecidableEq

structure MarketRow where
  idea_id : Nat
  market_size : Option String
  competitors : Option String
  technical_feasibility : Option String
  development_timeline : Option String
deriving Repr, DecidableEq

structure Db where
  ideas : List IdeaRow
  tags : List (Nat × Tag)
  idea_tags : List (Nat × Nat)
  market_data : List MarketRow
deriving Repr

/-- The per-idea tag query (`SELECT t.category, t.value FROM tags t JOIN
idea_tags it ON t.id = it.tag_id WHERE it.idea_id = ?`). -/
def tagsOfIdea (db : Db) (ideaId : Nat) : List Tag :=
  (db.idea_tags.filter (fun p => p.1 == ideaId)).filterMap
    (fun p => (db.tags.find? (fun t => t.1 == p.2)).map (fun t => t.2))

/-! ## Filters and the `get_ideas_with_filters` predicate
(app/database.py 357–448)

A Python filter dict: a missing key and a falsy value behave alike
(`filters.get(...)` truthiness), so each tag category is a list with `[]`
for "not supplied", `search` is an optional string with `""` also meaning
"not supplied", and the date bounds are optional timestamps.
-/

structure Filters where
  industry : List String
  target_market : List String
  complexity : List String
  technology : List String
  search : Option String
  date_from : Option Int
  date_to : Option Int
  limit : Option Nat
  offset : Option Nat
deriving Repr

def noFilters : Filters := ⟨[], [], [], [], none, none, none, none, none⟩

/-- Whether any tag-category filter is supplied (the join condition at
database.py 375). -/
def tagFilterActive (f : Filters) : Bool :=
  !f.industry.isEmpty || !f.target_market.isEmpty ||
  !f.complexity.isEmpty || !f.technology.isEmpty

/-- One `(t.category = X AND t.value IN (...))` clause per supplied
category, ORed together (database.py 379–401). -/
def tagClause (f : Filters) (t : Tag) : Bool :=
  (!f.industry.isEmpty && t.category == "industry" && f.industry.contains t.value) ||
  (!f.target_market.isEmpty && t.category == "target_market" &&
    f.target_market.contains t.value) ||
  (!f.complexity.isEmpty && t.category == "complexity" &&
    f.complexity.contains t.value) ||
  (!f.technology.isEmpty && t.category == "technology" &&
    f.technology.contains t.value)

/-- SQLite `LIKE`: `%` any sequence, `_` any character, ASCII
case-insensitive. -/
def likeMatch : List Char → List Char → Bool
  | [], [] => true
  | [], _ :: _ => false
  | '%' :: p, [] => likeMatch p []
  | '%' :: p, c :: t => likeMatch p (c :: t) || likeMatch ('%' :: p) t
  | '_' :: _, [] => false
  | '_' :: p, _ :: t => likeMatch p t
  | _ :: _, [] => false
  | a :: p, c :: t => (a.toLower == c.toLower) && likeMatch p t
termination_by p t => p.length + t.length

/-- `column LIKE '%term%'`. -/
def likeContains (column term : String) : Bool :=
  likeMatch ('%' :: (term.data ++ ['%'])) column.data

/-- The text-search condition (database.py 404–407): title OR summary OR
description. -/
def searchCond (f : Filters) (i : IdeaRow) : Bool :=
  match f.search with
  | none => true
  | some s =>
    if s == "" then true
    else likeContains i.title s || likeContains i.summary s ||
      likeContains i.description s

/-- `i.generated_date >= date_from` when supplied (database.py 410–412). -/
def dateFromCond (f : Filters) (i : IdeaRow) : Bool :=
  match f.date_from with
  | none => true
  | some d => d ≤ i.generated_date

/-- `i.generated_date <= date_to` when supplied (database.py 414–416). -/
def dateToCond (f : Filters) (i : IdeaRow) : Bool :=
  match f.date_to with
  | none => true
  | some d => i.generated_date ≤ d

/-- The complete WHERE clause applied to a row of `ideas`: when a tag
filter is supplied the tag join requires some associated tag to satisfy
the ORed clauses (`SELECT DISTINCT` collapses the join multiplicity; `id`
is a primary key, so deduplicating joined rows is selecting base rows);
with no tag filter there is no join and untagged rows stay eligible. -/
def matchesFilters (db : Db) (f : Filters) (i : IdeaRow) : Bool :=
  (if tagFilterActive f then (tagsOfIdea db i.id).any (tagClause f) else true) &&
  searchCond f i && dateFromCond f i && dateToCond f i

/-- The matching rows, in table (insertion) order, before ORDER BY and
pagination. -/
def filteredIdeas (db : Db) (f : Filters) : List IdeaRow :=
  db.ideas.filter (matchesFilters db f)

/-- `ORDER BY i.generated_date DESC`: non-strict descending on the sort
key.  SQLite promises the key order and nothing about ties. -/
def sortedByDateDesc (l : List IdeaRow) : Prop :=
  l.Pairwise (fun a b => b.generated_date ≤ a.generated_date)

/-- The rows `get_ideas_with_filters` may return: some permutation of the
matching rows that is sorted by `generated_date` descending, cut by
`LIMIT ? OFFSET ?` with the defaults `limit = 50`, `offset = 0`
(database.py 418–433). -/
def queryRows (db : Db) (f : Filters) (out : List IdeaRow) : Prop :=
  ∃ full, full.Perm (filteredIdeas db f) ∧ sortedByDateDesc full ∧
    out = (full.drop (f.offset.getD 0)).take (f.limit.getD 50)

/-- A returned idea: the row enriched with its tag list (the second query
per idea, database.py 436–446). -/
def enrich (db : Db) (r : IdeaRow) : IdeaRow × List Tag :=
  (r, tagsOfIdea db r.id)

/-- `get_ideas_with_filters` from app/database.py as a relation between the
database, the filters and a possible return value. -/
def get_ideas_with_filters (db : Db) (f : Filters)
    (out : List (IdeaRow × List Tag)) : Prop :=
  ∃ rows, queryRows db f rows ∧ out = rows.map (enrich db)

/-- `count_ideas_with_filters` from app/database.py 596–613: pops `limit`
and `offset` from a copy of the filters and counts the rows
`get_ideas_with_filters` returns for the stripped filters. -/
def count_ideas_with_filters (db : Db) (f : Filters) (n : Nat) : Prop :=
  ∃ out, get_ideas_with_filters db
    { f with limit := none, offset := none } out ∧ n = out.length

/-! ## `get_idea_by_id` (app/database.py 299–354)

The main row, its tags, and the market-data row if any.  The stored
`competitors` text is decoded only when truthy (non-NULL, non-empty);
a `json.JSONDecodeError` is replaced by the empty list.
-/

/-- The `competitors` entry after `get_idea_by_id` post-processing: either
the stored raw value left alone (NULL or `""`), or a decoded JSON value. -/
inductive CompetitorsVal where
  | raw (s : Option String)
  | decoded (j : Json)
deriving Repr

structure MarketOut where
  idea_id : Nat
  market_size : Option String
  competitors : CompetitorsVal
  technical_feasibility : Option String
  development_timeline : Option String
deriving Repr

structure IdeaDetail where
  row : IdeaRow
  tags : List Tag
  market_data : Option MarketOut
deriving Repr

def decodeCompetitors (stored : Option String) : CompetitorsVal :=
  match stored with
  | none => .raw none
  | some s =>
    if s == "" then .raw (some s)
    else
      match jsonParse s with
      | some j => .decoded j
      | none => .decoded (.arr [])

/-- `get_idea_by_id` from app/database.py. -/
def get_idea_by_id (db : Db) (ideaId : Nat) : Option IdeaDetail :=
  match db.ideas.find? (fun r => r.id == ideaId) with
  | none => none
  | some row =>
    let md :=
      match db.market_data.find? (fun m => m.idea_id == ideaId) with
      | none => none
      | some m => some
          { idea_id := m.idea_id
            market_size := m.market_size
            competitors := decodeCompetitors m.competitors
            technical_feasibility := m.technical_feasibility
            development_timeline := m.development_timeline }
    some ⟨row, tagsOfIdea db ideaId, md⟩

/-! ## Idea cards (app/api/ideas.py)

Card construction shared by `get_ideas` (48–58), `search_ideas` (164–174),
`get_random_idea_endpoint` and `get_recent_ideas`:
`summary[:150] + '...' if len(summary) > 150 else summary`.
-/

structure IdeaCard where
  id : Nat
  title : String
  summary : String
  tags : List Tag
  generated_date : Int
deriving Repr, DecidableEq

/-- The card-summary truncation from app/api/ideas.py. -/
def truncateSummary (s : String) : String :=
  if s.length > 150 then ⟨s.data.take 150 ++ "...".data⟩ else s

def toCard (p : IdeaRow × List Tag) : IdeaCard :=
  ⟨p.1.id, p.1.title, truncateSummary p.1.summary, p.2, p.1.generated_date⟩

/-- `GET /api/ideas/` (app/api/ideas.py 27–60): `get_ideas_with_filters`
with only `limit`/`offset`, mapped to cards. -/
def get_ideas_endpoint (db : Db) (lim off : Nat) (cards : List IdeaCard) : Prop :=
  ∃ out, get_ideas_with_filters db
    { noFilters with limit := some lim, offset := some off } out ∧
    cards = out.map toCard

/-- The card list of `GET /api/ideas/search/` (app/api/ideas.py 114–180). -/
def search_ideas_cards (db : Db) (f : Filters) (cards : List IdeaCard) : Prop :=
  ∃ out, get_ideas_with_filters db f out ∧ cards = out.map toCard

/-! ## The chat assistant reply (app/api/chat.py)

`call_claude_cli` (433–482) never raises: each failure mode returns a
message string of its own.  `generate_claude_response` (around 296–392)
stores whatever `call_claude_cli` returned as the assistant message and
broadcasts the same row; only an exception elsewhere in its `try` block
(`except Exception` at 370) substitutes the fixed apology.
-/

/-- How the `claude-code` subprocess invocation can end. -/
inductive CliOutcome where
  | ok (stdout : String)
  | err (stderr : String)
  | notFound
  | exc (msg : String)
deriving Repr, DecidableEq

def readyMsg : String := "I'm ready to help with your project!"

def errIssuePrefix : String := "I encountered an issue accessing the project. Error: "

def notFoundMsg : String :=
  "Claude Code CLI is not available. Please install it to enable project analysis features."

def techIssuePrefix : String := "I apologize, but I encountered a technical issue: "

def apologyMsg : String :=
  "I apologize, but I encountered an error processing your message. Please try again."

/-- `call_claude_cli` from app/api/chat.py. -/
def call_claude_cli : CliOutcome → String
  | .ok stdout => if stdout == "" then readyMsg else pyStrip stdout
  | .err stderr => errIssuePrefix ++ pyStrip stderr
  | .notFound => notFoundMsg
  | .exc msg => techIssuePrefix ++ msg

/-- What `generate_claude_response` persists and broadcasts for the
assistant turn: `outerFailure` models an exception in its own `try` block
(for example a database error), which is the only path to the fixed
apology. -/
structure ChatEffect where
  stored : String
  broadcast : String
deriving Repr, DecidableEq

def generate_claude_response (outerFailure : Bool) (o : CliOutcome) : ChatEffect :=
  if outerFailure then ⟨apologyMsg, apologyMsg⟩
  else ⟨call_claude_cli o, call_claude_cli o⟩

/-! ## `store_idea_in_database` (scripts/generate_idea.py 322–410)

The second, surviving definition: 5 attempts; a busy/locked
`sqlite3.OperationalError` sleeps `retry_delay` (initially 1, then ×1.5)
and retries — except after the final attempt; any other error returns
`None` at once; success returns the new row id.  The lock state of the
database is an oracle from attempt number to outcome; delays are exact in
`ℚ` (1, 3/2, 9/4, 27/8 are exact binary floats, so this loses nothing).
-/

inductive DbOutcome where
  | ok (ideaId : Nat)
  | busy
  | otherError
  | exc
deriving Repr, DecidableEq

structure StoreTrace where
  result : Option Nat
  sleeps : List ℚ
  attempts : Nat
deriving Repr, DecidableEq

def storeGo (dbo : Nat → DbOutcome) : Nat → ℚ → Nat → StoreTrace
  | _, _, 0 => ⟨none, [], 0⟩
  | k, delay, fuel + 1 =>
    match dbo k with
    | .ok ideaId => ⟨some ideaId, [], 1⟩
    | .busy =>
      if fuel = 0 then ⟨none, [], 1⟩
      else
        let t := storeGo dbo (k + 1) (delay * (3 / 2)) fuel
        ⟨t.result, delay :: t.sleeps, t.attempts + 1⟩
    | .otherError => ⟨none, [], 1⟩
    | .exc => ⟨none, [], 1⟩

/-- `store_idea_in_database` from scripts/generate_idea.py: `max_retries = 5`,
`retry_delay = 1`. -/
def store_idea_in_database (dbo : Nat → DbOutcome) : StoreTrace :=
  storeGo dbo 0 1 5

/-! ## The generation pipeline (`main` and `retry_generation`,
scripts/generate_idea.py 413–535)

The external world per pipeline attempt: whether the methodology file
loads, what `execute_claude_cli` returns (`none` for non-zero exit,
timeout, or a missing binary — all return `None` in the source), and what
`store_idea_in_database` returns when persistence is reached.  Parsing and
validation are the pure functions embedded above; `enhance_with_metadata`
is pure and cannot fail on a validated idea, so it does not appear in the
failure structure.
-/

structure AttemptEnv where
  methodology : Option String
  cliResponse : Option String
  storeResult : Option Nat
deriving Repr

/-- The distinct `log_generation_attempt` error strings of generate_idea.py:
"Claude CLI execution failed", "Response parsing failed", "Invalid idea
structure", "Database storage failed", and the `f"Unexpected error: ..."`
of the outer handler. -/
inductive GenErr where
  | cliFailed
  | parseFailed
  | invalidStructure
  | storeFailed
  | unexpected
deriving Repr, DecidableEq

/-- One `generation_log` row (`log_generation_attempt`). -/
structure LogEntry where
  success : Bool
  errorMessage : Option GenErr
  ideaId : Option Nat
deriving Repr, DecidableEq

/-- `construct_idea_generation_prompt` (generate_idea.py 85–120); the
current date and the existing-ideas context are environment inputs. -/
def construct_prompt (methodology ctx date : String) : String :=
  methodology ++ "\n\n--- GENERATION REQUEST ---\n\nDate: " ++ date ++
  "\n\n" ++ ctx ++
  "\n\nPlease generate exactly one outstanding app idea following the methodology above. \n\nIMPORTANT: Respond with valid JSON only, no additional text or explanation. The JSON should exactly match the structure specified in the methodology.\n\nEnsure the idea:\n1. Addresses a real market need\n2. Has strong business potential\n3. Includes factual supporting data\n4. Is technically feasible\n5. Has clear differentiation\n6. Is completely different from any existing ideas listed above\n\nGenerate the idea now:"

/-- The suffix `retry_generation` appends for attempt `k` (0-based;
the source prints `attempt + 1`). -/
def retryNote (k : Nat) : String :=
  "\n\nNote: This is retry attempt " ++ toString (k + 1) ++
  ". Please ensure the response is valid JSON."

def retryPrompt (base : String) (k : Nat) : String := base ++ retryNote k

def jsonHint : String := "Please ensure the response is valid JSON."

/-- One iteration of the `retry_generation` loop: the attempt's outcome
(`some id` on success) and the prompts it sent to the assistant.  A failed
step only logs to the text logger and `continue`s — it writes no
`generation_log` row. -/
def retryAttempt (ctx date : String) (e : AttemptEnv) (k : Nat) :
    Option Nat × List String :=
  match e.methodology with
  | none => (none, [])
  | some m =>
    let p := retryPrompt (construct_prompt m ctx date) k
    match e.cliResponse with
    | none => (none, [p])
    | some resp =>
      match parse_claude_response resp with
      | none => (none, [p])
      | some j =>
        if validate_idea_structure j then
          match e.storeResult with
          | some ideaId => (some ideaId, [p])
          | none => (none, [p])
        else (none, [p])

structure RetryTrace where
  result : Bool
  log : List LogEntry
  cliCalls : List String
  sleeps : List Nat
deriving Repr, DecidableEq

/-- The `for attempt in range(max_attempts)` loop of `retry_generation`:
`log_generation_attempt(True, idea_id=...)` only on the successful attempt,
`time.sleep(10)` between consecutive attempts. -/
def retryGo (ctx date : String) (envs : Nat → AttemptEnv) :
    Nat → Nat → RetryTrace
  | _, 0 => ⟨false, [], [], []⟩
  | k, fuel + 1 =>
    match retryAttempt ctx date (envs k) k with
    | (some ideaId, calls) => ⟨true, [⟨true, none, some ideaId⟩], calls, []⟩
    | (none, calls) =>
      if fuel = 0 then ⟨false, [], calls, []⟩
      else
        let t := retryGo ctx date envs (k + 1) fuel
        ⟨t.result, t.log, calls ++ t.cliCalls, 10 :: t.sleeps⟩

/-- `retry_generation` from scripts/generate_idea.py: `max_attempts = 3`. -/
def retry_generation (ctx date : String) (envs : Nat → AttemptEnv) : RetryTrace :=
  retryGo ctx date envs 0 3

/-- The full observable behaviour of one `main()` run. -/
structure GenTrace where
  result : Bool
  log : List LogEntry
  cliCalls : List String
  retryInvoked : Bool
  sleeps : List Nat
deriving Repr, DecidableEq

/-- `main` from scripts/generate_idea.py 474–535: a CLI, parse or
validation failure writes one failure log row and returns
`retry_generation()`; a storage failure writes one failure log row and
returns `False` with no retry; an exception (the methodology file missing)
reaches the outer handler, which logs `Unexpected error` and returns
`False`. -/
def mainModel (ctx date : String) (e0 : AttemptEnv)
    (renvs : Nat → AttemptEnv) : GenTrace :=
  match e0.methodology with
  | none => ⟨false, [⟨false, some .unexpected, none⟩], [], false, []⟩
  | some m =>
    let p := construct_prompt m ctx date
    match e0.cliResponse with
    | none =>
      let t := retry_generation ctx date renvs
      ⟨t.result, ⟨false, some .cliFailed, none⟩ :: t.log, p :: t.cliCalls,
        true, t.sleeps⟩
    | some resp =>
      match parse_claude_response resp with
      | none =>
        let t := retry_generation ctx date renvs
        ⟨t.result, ⟨false, some .parseFailed, none⟩ :: t.log, p :: t.cliCalls,
          true, t.sleeps⟩
      | some j =>
        if validate_idea_structure j then
          match e0.storeResult with
          | some ideaId => ⟨true, [⟨true, none, some ideaId⟩], [p], false, []⟩
          | none => ⟨false, [⟨false, some .storeFailed, none⟩], [p], false, []⟩
        else
          let t := retry_generation ctx date renvs
          ⟨t.result, ⟨false, some .invalidStructure, none⟩ :: t.log,
            p :: t.cliCalls, true, t.sleeps⟩

/-- The initial-run failures that reach a `return retry_generation()` in
`main`: CLI failure, parse failure, or validation failure. -/
def initialRecoverable (e : AttemptEnv) : Bool :=
  match e.cliResponse with
  | none => true
  | some r =>
    match parse_claude_response r with
    | none => true
    | some j => !validate_idea_structure j

instance (l : List IdeaRow) : Decidable (sortedByDateDesc l) :=
  List.instDecidablePairwise l

/-! ## Concrete fixtures for witnesses and counterexamples -/

/-- A store of 51 ideas, none tagged, dates strictly descending. -/
def db51 : Db :=
  { ideas := (List.range 51).map (fun k => ⟨k + 1, "t", "s", "d", "l", 51 - (k : Int)⟩)
    tags := []
    idea_tags := []
    market_data := [] }

/-- Idea 1 carries the tag (industry, fintech); idea 2 is untagged. -/
def ideaFintech : IdeaRow := ⟨1, "Pay", "fintech app", "desc", "logic", 5⟩

def ideaPlain : IdeaRow := ⟨2, "Plain", "other", "desc", "logic", 4⟩

def dbTag : Db :=
  { ideas := [ideaFintech, ideaPlain]
    tags := [(1, ⟨"industry", "fintech"⟩)]
    idea_tags := [(1, 1)]
    market_data := [] }

def industryFintech : Filters := { noFilters with industry := ["fintech"] }

/-- Two ideas sharing one `generated_date`; row id 1 was inserted first. -/
def rowFirst : IdeaRow := ⟨1, "a", "s", "d", "l", 100⟩

def rowSecond : IdeaRow := ⟨2, "b", "s", "d", "l", 100⟩

def dbTie : Db := { ideas := [rowFirst, rowSecond], tags := [], idea_tags := [], market_data := [] }

/-- A 151-character summary. -/
def longSummary : String := ⟨List.replicate 151 'a'⟩

def rowLongSummary : IdeaRow := ⟨1, "T", longSummary, "d", "l", 1⟩

def dbLongSummary : Db := { ideas := [rowLongSummary], tags := [], idea_tags := [], market_data := [] }

/-- Idea 1 with a market row whose stored `competitors` is not JSON. -/
def marketRowBad : MarketRow :=
  ⟨1, some "large", some "not json", some "high", some "6 months"⟩

def dbBadCompetitors : Db :=
  { ideas := [ideaFintech], tags := [], idea_tags := [], market_data := [marketRowBad] }

/-- An assistant response that parses and passes `validate_idea_structure`. -/
def goodResponse : String :=
  "\x7b\"title\":\"T\",\"summary\":\"S\",\"description\":\"D\",\"supporting_logic\":\"L\",\"tags\":[\x7b\"category\":\"industry\",\"value\":\"fintech\"\x7d],\"market_analysis\":\x7b\"market_size\":\"large\"\x7d\x7d"

/-- An attempt environment in which the assistant call always fails. -/
def envCliFails : AttemptEnv := ⟨some "M", none, none⟩

/-- An attempt environment in which everything up to persistence succeeds
and persistence fails. -/
def envStoreFails : AttemptEnv := ⟨some "M", some goodResponse, none⟩

/-- A raw assistant output holding two complete JSON objects. -/
def twoObjectsResponse : String := "x \x7b\"a\":1\x7d y \x7b\"b\":2\x7d"

/-- The spec's parsing example: an object between junk. -/
def exampleResponse : String := "blah blah \x7b\"title\":\"X\"\x7d trailing"

/-! ## Supporting lemmas -/

theorem queryRows_length {db : Db} {f : Filters} {out : List IdeaRow}
    (h : queryRows db f out) :
    out.length = min (f.limit.getD 50) ((filteredIdeas db f).length - f.offset.getD 0) := by
  obtain ⟨full, hperm, -, hout⟩ := h
  subst hout
  rw [List.length_take, List.length_drop, hperm.length_eq]

theorem queryRows_sorted {db : Db} {f : Filters} {out : List IdeaRow}
    (h : queryRows db f out) : sortedByDateDesc out := by
  obtain ⟨full, -, hsort, hout⟩ := h
  subst hout
  exact hsort.sublist
    (((full.drop (f.offset.getD 0)).take_sublist _).trans (full.drop_sublist _))

/-! ## C1 — `count_ideas_with_filters` versus the total matching count -/

/-- C1: the claim says `count_with_filters` returns the total number of
matching ideas, never capped by any default page size.  The code strips
`limit`/`offset` and calls `get_ideas_with_filters`, which reinstates the
default `limit = 50`: on a store of 51 matching ideas the count is 50, not
51, contradicting the function's own docstring ("Total count of matching
ideas").  This theorem evaluates the code at that failing input. -/
theorem count_with_filters_capped_by_default_limit :
    (filteredIdeas db51 noFilters).length = 51 ∧
    count_ideas_with_filters db51 noFilters 50 ∧
    ∀ n, count_ideas_with_filters db51 noFilters n → n = 50 := by
  refine ⟨by decide, ?_, ?_⟩
  · exact ⟨((db51.ideas.drop 0).take 50).map (enrich db51),
      ⟨(db51.ideas.drop 0).take 50, ⟨db51.ideas, by decide, by decide, rfl⟩, rfl⟩,
      by decide⟩
  · rintro n ⟨out, ⟨rows, hq, hout⟩, hn⟩
    subst hn hout
    rw [List.length_map, queryRows_length hq]
    decide

/-! ## C7 — persistence retry with backoff -/

theorem storeGo_attempts_le (dbo : Nat → DbOutcome) :
    ∀ (fuel k : Nat) (delay : ℚ), (storeGo dbo k delay fuel).attempts ≤ fuel := by
  intro fuel
  induction fuel with
  | zero => intro k delay; simp [storeGo]
  | succ n ih =>
    intro k delay
    cases h : dbo k with
    | ok ideaId => simp [storeGo, h]
    | busy =>
      simp only [storeGo, h]
      by_cases hn : n = 0
      · simp [hn]
      · simp only [if_neg hn]
        exact Nat.succ_le_succ (ih (k + 1) (delay * (3 / 2)))
    | otherError => simp [storeGo, h]
    | exc => simp [storeGo, h]

/-- C7: persistence makes at most 5 attempts; when the database stays
busy/locked it sleeps 1, 1.5, 2.25 and 3.375 seconds between the five
attempts and then fails; success at some attempt returns the row id (here:
busy three times, then success); a storage error that is not busy/locked
aborts at once, with one attempt and no sleep. -/
theorem store_retry_backoff_policy :
    (∀ dbo, (store_idea_in_database dbo).attempts ≤ 5) ∧
    store_idea_in_database (fun _ => .busy) = ⟨none, [1, 3/2, 9/4, 27/8], 5⟩ ∧
    (∀ ideaId, store_idea_in_database (fun k => if k < 3 then .busy else .ok ideaId) =
      ⟨some ideaId, [1, 3/2, 9/4], 4⟩) ∧
    store_idea_in_database (fun _ => .otherError) = ⟨none, [], 1⟩ ∧
    (∀ dbo, dbo 0 = DbOutcome.otherError → store_idea_in_database dbo = ⟨none, [], 1⟩) := by
  refine ⟨fun dbo => storeGo_attempts_le dbo 5 0 1, ?_, ?_, ?_, ?_⟩
  · simp only [store_idea_in_database, storeGo]
    norm_num
  · intro ideaId
    simp only [store_idea_in_database, storeGo]
    norm_num
  · simp only [store_idea_in_database, storeGo]
  · intro dbo h
    simp [store_idea_in_database, storeGo, h]

/-! ## C8 — result ordering -/

/-- C8 counterexample: the query orders by `generated_date DESC` with no
secondary key, so SQLite may return two ideas with equal dates in either
order.  Here `[rowSecond, rowFirst]` — the reverse of insertion order — is
a permitted result of `get_ideas_with_filters` on `dbTie`, yet rows with
equal dates are not in insertion (id) order, refuting the claimed tie
break. -/
theorem query_order_tie_not_insertion_order :
    queryRows dbTie noFilters [rowSecond, rowFirst] ∧
    ¬ List.Pairwise (fun a b : IdeaRow =>
        a.generated_date = b.generated_date → a.id < b.id) [rowSecond, rowFirst] := by
  constructor
  · exact ⟨[rowSecond, rowFirst], by decide, by decide, rfl⟩
  · decide

/-- C8 amended: every sequence `get_ideas_with_filters` can return is
sorted by `generated_date` in descending order; the relative order of
ideas with equal `generated_date` is not specified. -/
theorem get_with_filters_sorted_desc :
    ∀ (db : Db) (f : Filters) (out : List (IdeaRow × List Tag)),
      get_ideas_with_filters db f out →
      List.Pairwise (fun a b : IdeaRow × List Tag =>
        b.1.generated_date ≤ a.1.generated_date) out := by
  rintro db f out ⟨rows, hq, rfl⟩
  exact (queryRows_sorted hq).map _ (fun a b h => h)

/-- Witness for C8's amended theorem at a concrete database and result. -/
theorem get_with_filters_sorted_desc_witness :
    List.Pairwise (fun a b : IdeaRow × List Tag =>
      b.1.generated_date ≤ a.1.generated_date)
      ([rowFirst, rowSecond].map (enrich dbTie)) :=
  get_with_filters_sorted_desc dbTie noFilters _
    ⟨[rowFirst, rowSecond], ⟨[rowFirst, rowSecond], by decide, by decide, rfl⟩, rfl⟩

/-! ## C9 — card summary truncation -/

/-- C9 counterexample: a 151-character summary is truncated to
`summary[:150] + '...'`, which is 153 characters — more than the claimed
150-character bound for cards returned by the list endpoint. -/
theorem card_summary_truncation_exceeds_150 :
    get_ideas_endpoint dbLongSummary 50 0 [toCard (rowLongSummary, [])] ∧
    rowLongSummary.summary.length = 151 ∧
    (toCard (rowLongSummary, [])).summary.length = 153 := by
  refine ⟨⟨[rowLongSummary].map (enrich dbLongSummary),
    ⟨[rowLongSummary], ⟨[rowLongSummary], by decide, by decide, rfl⟩, rfl⟩, rfl⟩,
    by decide, by decide⟩

theorem truncateSummary_length_le (s : String) : (truncateSummary s).length ≤ 153 := by
  by_cases h : s.length > 150
  · simp only [truncateSummary, if_pos h, String.length_mk, List.length_append,
      List.length_take, List.length_cons, List.length_nil]
    have hs : s.data.length = s.length := rfl
    omega
  · simp only [truncateSummary, if_neg h]
    omega

/-- C9 amended: card summaries of at most 150 characters are returned
unchanged; longer ones become the first 150 characters plus `"..."`,
exactly 153 characters; so every card of the list and search endpoints has
a summary of at most 153 (not 150) characters. -/
theorem card_summary_truncation_bound :
    (∀ s : String, s.length ≤ 150 → truncateSummary s = s) ∧
    (∀ s : String, 150 < s.length → (truncateSummary s).length = 153) ∧
    (∀ (db : Db) (lim off : Nat) (cards : List IdeaCard),
      get_ideas_endpoint db lim off cards → ∀ c ∈ cards, c.summary.length ≤ 153) ∧
    (∀ (db : Db) (f : Filters) (cards : List IdeaCard),
      search_ideas_cards db f cards → ∀ c ∈ cards, c.summary.length ≤ 153) := by
  refine ⟨?_, ?_, ?_, ?_⟩
  · intro s h
    simp only [truncateSummary, if_neg (by omega : ¬ s.length > 150)]
  · intro s h
    simp only [truncateSummary, if_pos (by omega : s.length > 150), String.length_mk,
      List.length_append, List.length_take, List.length_cons, List.length_nil]
    have hs : s.data.length = s.length := rfl
    omega
  · rintro db lim off cards ⟨out, -, rfl⟩ c hc
    rw [List.mem_map] at hc
    obtain ⟨p, -, rfl⟩ := hc
    exact truncateSummary_length_le p.1.summary
  · rintro db f cards ⟨out, -, rfl⟩ c hc
    rw [List.mem_map] at hc
    obtain ⟨p, -, rfl⟩ := hc
    exact truncateSummary_length_le p.1.summary

/-! ## C10 — invalid stored competitors JSON -/

/-- C10: when the idea exists and its market row's stored `competitors`
text is truthy but not valid JSON, `get_idea_by_id` still succeeds and
returns the idea with `competitors` replaced by the empty list, every
other field taken unchanged from the stored rows. -/
theorem get_idea_by_id_invalid_competitors :
    ∀ (db : Db) (ideaId : Nat) (row : IdeaRow) (m : MarketRow) (s : String),
      db.ideas.find? (fun r => r.id == ideaId) = some row →
      db.market_data.find? (fun mr => mr.idea_id == ideaId) = some m →
      m.competitors = some s → s ≠ "" → jsonParse s = none →
      get_idea_by_id db ideaId = some
        ⟨row, tagsOfIdea db ideaId,
          some ⟨m.idea_id, m.market_size, .decoded (.arr []),
            m.technical_feasibility, m.development_timeline⟩⟩ := by
  intro db ideaId row m s h1 h2 h3 h4 h5
  simp [get_idea_by_id, h1, h2, decodeCompetitors, h3, h5, h4]

/-- Witness for C10 on a concrete store whose `competitors` text is
`"not json"`. -/
theorem get_idea_by_id_invalid_competitors_witness :
    get_idea_by_id dbBadCompetitors 1 = some
      ⟨ideaFintech, tagsOfIdea dbBadCompetitors 1,
        some ⟨1, some "large", .decoded (.arr []), some "high", some "6 months"⟩⟩ :=
  get_idea_by_id_invalid_competitors dbBadCompetitors 1 ideaFintech marketRowBad
    "not json" rfl rfl rfl (by decide) rfl

/-! ## C6 — chat assistant failure replies -/

/-- C6 counterexample: when the assistant subprocess exits non-zero, the
reply stored and broadcast is `errIssuePrefix ++ stderr` — it embeds the
raw stderr text (`"boom"` here), varies with it, and is not the fixed
apologetic message, refuting the claim that failures always yield a fixed
apologetic string free of raw error output. -/
theorem chat_reply_embeds_stderr :
    (generate_claude_response false (.err "boom")).stored =
      "I encountered an issue accessing the project. Error: boom" ∧
    "boom".data <:+: (generate_claude_response false (.err "boom")).stored.data ∧
    generate_claude_response false (.err "boom") ≠
      generate_claude_response false (.err "zap") ∧
    (generate_claude_response false (.err "boom")).stored ≠ apologyMsg := by
  exact ⟨rfl, by decide, by decide, by decide⟩

/-- C6 amended: the broadcast text always equals the stored assistant
message; an exception outside the CLI call yields the fixed apology; a
missing binary yields the fixed installation message; but a non-zero exit
embeds the stripped stderr after a fixed prefix, and an in-call exception
embeds the exception text — the reply is not a fixed string on those
failure paths. -/
theorem chat_reply_fallback_behaviour :
    (∀ (b : Bool) (o : CliOutcome),
      (generate_claude_response b o).broadcast = (generate_claude_response b o).stored) ∧
    (∀ o : CliOutcome, (generate_claude_response true o).stored = apologyMsg) ∧
    (∀ o : CliOutcome, (generate_claude_response false o).stored = call_claude_cli o) ∧
    call_claude_cli .notFound = notFoundMsg ∧
    (∀ e : String, (call_claude_cli (.err e)).data = errIssuePrefix.data ++ (pyStrip e).data) ∧
    (∀ msg : String, (call_claude_cli (.exc msg)).data = techIssuePrefix.data ++ msg.data) := by
  refine ⟨?_, fun o => rfl, fun o => rfl, rfl, fun e => String.data_append _ _,
    fun msg => String.data_append _ _⟩
  intro b o
  cases b <;> rfl

/-! ## C2 — the tag-filter predicate -/

theorem supplied_and_mem_iff (l : List String) (P : Prop) (v : String) :
    ((l.isEmpty = false ∧ P) ∧ v ∈ l) ↔ (P ∧ v ∈ l) := by
  constructor
  · rintro ⟨⟨-, h1⟩, h2⟩; exact ⟨h1, h2⟩
  · rintro ⟨h1, h2⟩
    refine ⟨⟨?_, h1⟩, h2⟩
    cases l with
    | nil => cases h2
    | cons a t => rfl

theorem tagClause_iff (f : Filters) (t : Tag) :
    tagClause f t = true ↔
      (t.category = "industry" ∧ t.value ∈ f.industry) ∨
      (t.category = "target_market" ∧ t.value ∈ f.target_market) ∨
      (t.category = "complexity" ∧ t.value ∈ f.complexity) ∨
      (t.category = "technology" ∧ t.value ∈ f.technology) := by
  simp only [tagClause, Bool.or_eq_true, Bool.and_eq_true, beq_iff_eq,
    Bool.not_eq_true', List.elem_iff]
  rw [supplied_and_mem_iff, supplied_and_mem_iff, supplied_and_mem_iff,
    supplied_and_mem_iff, or_assoc, or_assoc]

/-- C2: with at least one tag-category filter supplied, a row matches the
WHERE clause exactly when it carries some tag whose category is a supplied
one and whose value is in that category's list (OR across categories, OR
within a list), conjoined with the search and date conditions; with no
tag-category filter there is no tag requirement, so untagged ideas stay
eligible; and everything `get_ideas_with_filters` returns is drawn from
these matching rows. -/
theorem get_with_filters_tag_predicate :
    ∀ (db : Db) (f : Filters),
      (∀ i, i ∈ filteredIdeas db f ↔
        i ∈ db.ideas ∧
        (tagFilterActive f = true →
          ∃ t ∈ tagsOfIdea db i.id,
            (t.category = "industry" ∧ t.value ∈ f.industry) ∨
            (t.category = "target_market" ∧ t.value ∈ f.target_market) ∨
            (t.category = "complexity" ∧ t.value ∈ f.complexity) ∨
            (t.category = "technology" ∧ t.value ∈ f.technology)) ∧
        searchCond f i = true ∧ dateFromCond f i = true ∧ dateToCond f i = true) ∧
      (∀ out p, get_ideas_with_filters db f out → p ∈ out →
        p.1 ∈ filteredIdeas db f) := by
  intro db f
  constructor
  · intro i
    rw [filteredIdeas, List.mem_filter, matchesFilters]
    by_cases h : tagFilterActive f = true
    · simp only [h, if_true, Bool.and_eq_true, List.any_eq_true, true_implies]
      constructor
      · rintro ⟨h1, ⟨⟨⟨t, ht, hc⟩, h2⟩, h3⟩, h4⟩
        exact ⟨h1, ⟨t, ht, (tagClause_iff f t).mp hc⟩, h2, h3, h4⟩
      · rintro ⟨h1, ⟨t, ht, hc⟩, h2, h3, h4⟩
        exact ⟨h1, ⟨⟨⟨t, ht, (tagClause_iff f t).mpr hc⟩, h2⟩, h3⟩, h4⟩
    · rw [Bool.not_eq_true] at h
      simp only [h, Bool.false_eq_true, if_false, false_implies, Bool.and_eq_true,
        true_and, and_assoc]
  · rintro out p ⟨rows, ⟨full, hperm, -, rfl⟩, rfl⟩ hp
    rw [List.mem_map] at hp
    obtain ⟨r, hr, rfl⟩ := hp
    have hrf : r ∈ full :=
      (((full.drop (f.offset.getD 0)).take_sublist _).trans (full.drop_sublist _)).mem hr
    exact (hperm.mem_iff).mp hrf

/-! ## C3 — generation-log entries when all attempts fail -/

/-- C3 counterexample: with the assistant failing on the initial run and on
all 3 retries, 4 assistant invocations happen but exactly one
`generation_log` entry is written (the initial failure) — not the claimed
4 — because `retry_generation` logs nothing for a failed retry attempt. -/
theorem all_attempts_fail_single_log_entry :
    (mainModel "ctx" "date" envCliFails (fun _ => envCliFails)).log.length = 1 ∧
    (mainModel "ctx" "date" envCliFails (fun _ => envCliFails)).cliCalls.length = 4 ∧
    (mainModel "ctx" "date" envCliFails (fun _ => envCliFails)).result = false ∧
    (mainModel "ctx" "date" envCliFails (fun _ => envCliFails)).log.length ≠ 4 :=
  ⟨rfl, rfl, rfl, by decide⟩

/-- C3 amended: when the initial assistant invocation fails and every retry
attempt fails too, the run makes 4 assistant invocations, returns failure,
sleeps 10 s between consecutive retries, and writes exactly one
`GenerationLogEntry` — the initial failure entry; failed retry attempts are
recorded only in the text log, not in the generation log. -/
theorem generation_log_on_total_failure :
    ∀ (ctx date m : String) (renvs : Nat → AttemptEnv),
      (∀ k, (renvs k).cliResponse = none) →
      (∀ k, ∃ mm, (renvs k).methodology = some mm) →
      (mainModel ctx date ⟨some m, none, none⟩ renvs).log =
        [⟨false, some .cliFailed, none⟩] ∧
      (mainModel ctx date ⟨some m, none, none⟩ renvs).cliCalls.length = 4 ∧
      (mainModel ctx date ⟨some m, none, none⟩ renvs).result = false ∧
      (mainModel ctx date ⟨some m, none, none⟩ renvs).sleeps = [10, 10] := by
  intro ctx date m renvs hcli hm
  obtain ⟨m0, h0⟩ := hm 0
  obtain ⟨m1, h1⟩ := hm 1
  obtain ⟨m2, h2⟩ := hm 2
  simp [mainModel, retry_generation, retryGo, retryAttempt, h0, h1, h2,
    hcli 0, hcli 1, hcli 2]

/-- Witness for C3's amended theorem with every attempt failing. -/
theorem generation_log_on_total_failure_witness :
    (mainModel "c" "d" ⟨some "M", none, none⟩ (fun _ => envCliFails)).log =
      [⟨false, some .cliFailed, none⟩] ∧
    (mainModel "c" "d" ⟨some "M", none, none⟩ (fun _ => envCliFails)).cliCalls.length = 4 ∧
    (mainModel "c" "d" ⟨some "M", none, none⟩ (fun _ => envCliFails)).result = false ∧
    (mainModel "c" "d" ⟨some "M", none, none⟩ (fun _ => envCliFails)).sleeps = [10, 10] :=
  generation_log_on_total_failure "c" "d" "M" (fun _ => envCliFails)
    (fun _ => rfl) (fun _ => ⟨"M", rfl⟩)

/-! ## C4 — which failures trigger the retry sequence -/

/-- C4 counterexample: a run whose assistant response parses and validates
but whose persistence (step 7) fails returns failure directly — the retry
sequence is never invoked (one assistant call, no retry), refuting the
claim that any failure in steps 1–7 triggers the bounded retry. -/
theorem storage_failure_skips_retry :
    (mainModel "ctx" "date" envStoreFails (fun _ => envCliFails)).retryInvoked = false ∧
    (mainModel "ctx" "date" envStoreFails (fun _ => envCliFails)).result = false ∧
    (mainModel "ctx" "date" envStoreFails (fun _ => envCliFails)).cliCalls.length = 1 ∧
    (mainModel "ctx" "date" envStoreFails (fun _ => envCliFails)).log =
      [⟨false, some .storeFailed, none⟩] :=
  ⟨rfl, rfl, rfl, rfl⟩

theorem hint_suffix_retryPrompt (b : String) (k : Nat) :
    jsonHint.data <:+ (retryPrompt b k).data := by
  have h1 : jsonHint.data <:+
      (". Please ensure the response is valid JSON." : String).data := by decide
  have h2 : (retryPrompt b k).data =
      b.data ++ (("\n\nNote: This is retry attempt " ++ toString (k + 1)).data ++
        (". Please ensure the response is valid JSON." : String).data) := by
    simp only [retryPrompt, retryNote, String.data_append, List.append_assoc]
  rw [h2]
  exact h1.trans ((List.suffix_append _ _).trans (List.suffix_append _ _))

theorem retryAttempt_calls (ctx date : String) (e : AttemptEnv) (k : Nat) :
    (retryAttempt ctx date e k).2 = [] ∨
    ∃ b, (retryAttempt ctx date e k).2 = [retryPrompt b k] := by
  cases hm : e.methodology with
  | none => exact Or.inl (by simp [retryAttempt, hm])
  | some m =>
    cases hc : e.cliResponse with
    | none => exact Or.inr ⟨construct_prompt m ctx date, by simp [retryAttempt, hm, hc]⟩
    | some r =>
      cases hp : parse_claude_response r with
      | none =>
        exact Or.inr ⟨construct_prompt m ctx date, by simp [retryAttempt, hm, hc, hp]⟩
      | some j =>
        refine Or.inr ⟨construct_prompt m ctx date, ?_⟩
        simp only [retryAttempt, hm, hc, hp]
        by_cases hv : validate_idea_structure j
        · simp only [hv, if_true]
          cases e.storeResult <;> rfl
        · simp [hv]

theorem retryGo_bounds (ctx date : String) (envs : Nat → AttemptEnv) :
    ∀ (fuel k : Nat),
      (retryGo ctx date envs k fuel).cliCalls.length ≤ fuel ∧
      (∀ p ∈ (retryGo ctx date envs k fuel).cliCalls, jsonHint.data <:+ p.data) ∧
      (∀ s ∈ (retryGo ctx date envs k fuel).sleeps, s = 10) ∧
      (retryGo ctx date envs k fuel).sleeps.length ≤ fuel - 1 := by
  intro fuel
  induction fuel with
  | zero =>
    intro k
    refine ⟨by simp [retryGo], ?_, ?_, by simp [retryGo]⟩ <;> simp [retryGo]
  | succ n ih =>
    intro k
    have hcalls := retryAttempt_calls ctx date (envs k) k
    rcases h : retryAttempt ctx date (envs k) k with ⟨res, calls⟩
    rw [h] at hcalls
    have hlen : calls.length ≤ 1 := by
      rcases hcalls with h1 | ⟨b, h1⟩
      · have h2 : calls = [] := h1
        simp [h2]
      · have h2 : calls = [retryPrompt b k] := h1
        simp [h2]
    have hhint : ∀ p ∈ calls, jsonHint.data <:+ p.data := by
      rcases hcalls with h1 | ⟨b, h1⟩
      · have h2 : calls = [] := h1
        intro p hp
        rw [h2] at hp
        cases hp
      · have h2 : calls = [retryPrompt b k] := h1
        intro p hp
        rw [h2, List.mem_singleton] at hp
        subst hp
        exact hint_suffix_retryPrompt b k
    cases res with
    | some ideaId =>
      simp only [retryGo, h]
      exact ⟨by omega, hhint, by simp, by simp⟩
    | none =>
      simp only [retryGo, h]
      by_cases hn : n = 0
      · simp only [hn, if_true]
        exact ⟨by omega, hhint, by simp, by simp⟩
      · simp only [if_neg hn]
        obtain ⟨ih1, ih2, ih3, ih4⟩ := ih (k + 1)
        refine ⟨?_, ?_, ?_, ?_⟩
        · simp only [List.length_append]
          omega
        · intro p hp
          rw [List.mem_append] at hp
          rcases hp with hp | hp
          · exact hhint p hp
          · exact ih2 p hp
        · intro s hs
          rw [List.mem_cons] at hs
          rcases hs with rfl | hs
          · rfl
          · exact ih3 s hs
        · simp only [List.length_cons]
          omega

/-- C4 amended: the retry sequence is invoked exactly for
assistant-invocation, parse, or validation failures of the initial run
(`initialRecoverable`, and only when the methodology loaded) — a
methodology-load failure is terminal at once with a single unexpected-error
log entry, no assistant call and no retry, and a persistence failure is
terminal with no retry; when invoked, at most 3 retry invocations follow
the initial one (at most 4 assistant calls overall), each retry prompt
carries the "ensure valid JSON" hint, the waits between retry attempts are
all 10 seconds (at most 2 of them), and the run's outcome is exactly the
retry sequence's outcome. -/
theorem main_retry_policy :
    ∀ (ctx date : String) (e : AttemptEnv) (renvs : Nat → AttemptEnv),
      ((mainModel ctx date e renvs).retryInvoked =
        (e.methodology.isSome && initialRecoverable e) ∧
       (e.methodology = none →
         mainModel ctx date e renvs =
           ⟨false, [⟨false, some .unexpected, none⟩], [], false, []⟩) ∧
       (mainModel ctx date e renvs).cliCalls.length ≤ 4 ∧
       (∀ p ∈ (mainModel ctx date e renvs).cliCalls.drop 1, jsonHint.data <:+ p.data) ∧
       (∀ s ∈ (mainModel ctx date e renvs).sleeps, s = 10) ∧
       (mainModel ctx date e renvs).sleeps.length ≤ 2 ∧
       ((mainModel ctx date e renvs).retryInvoked = true →
         (mainModel ctx date e renvs).result = (retry_generation ctx date renvs).result)) := by
  intro ctx date e renvs
  obtain ⟨hr1, hr2, hr3, hr4⟩ := retryGo_bounds ctx date renvs 3 0
  cases hm : e.methodology with
  | none =>
    refine ⟨by simp [mainModel, hm], fun _ => by simp [mainModel, hm], ?_, ?_, ?_, ?_, ?_⟩
    · simp [mainModel, hm]
    · intro p hp2
      simp [mainModel, hm] at hp2
    · intro s hs2
      simp [mainModel, hm] at hs2
    · simp [mainModel, hm]
    · intro habs
      simp [mainModel, hm] at habs
  | some m =>
    cases hc : e.cliResponse with
    | none =>
      simp only [mainModel, hm, hc, retry_generation]
      refine ⟨by simp [initialRecoverable, hc, hm], by simp [hm], ?_, ?_, hr3, by omega,
        fun _ => trivial⟩
      · simp only [List.length_cons]
        exact Nat.succ_le_succ hr1
      · simp only [List.drop_one, List.tail_cons]
        exact hr2
    | some r =>
      cases hp : parse_claude_response r with
      | none =>
        simp only [mainModel, hm, hc, hp, retry_generation]
        refine ⟨by simp [initialRecoverable, hc, hp, hm], by simp [hm], ?_, ?_, hr3,
          by omega, fun _ => trivial⟩
        · simp only [List.length_cons]
          exact Nat.succ_le_succ hr1
        · simp only [List.drop_one, List.tail_cons]
          exact hr2
      | some j =>
        by_cases hv : validate_idea_structure j
        · cases hs : e.storeResult with
          | some ideaId =>
            simp only [mainModel, hm, hc, hp, hv, if_true, hs]
            refine ⟨by simp [initialRecoverable, hc, hp, hv, hm], by simp [hm],
              by simp, ?_, ?_, by simp, ?_⟩
            · intro p hp2
              simp at hp2
            · intro s hs2
              simp at hs2
            · intro habs
              simp at habs
          | none =>
            simp only [mainModel, hm, hc, hp, hv, if_true, hs]
            refine ⟨by simp [initialRecoverable, hc, hp, hv, hm], by simp [hm],
              by simp, ?_, ?_, by simp, ?_⟩
            · intro p hp2
              simp at hp2
            · intro s hs2
              simp at hs2
            · intro habs
              simp at habs
        · have hv2 : validate_idea_structure j = false := by
            rwa [Bool.not_eq_true] at hv
          simp only [mainModel, hm, hc, hp, hv2, Bool.false_eq_true, if_false,
            retry_generation]
          refine ⟨by simp [initialRecoverable, hc, hp, hv2, hm], by simp [hm], ?_, ?_,
            hr3, by omega, fun _ => trivial⟩
          · simp only [List.length_cons]
            exact Nat.succ_le_succ hr1
          · simp only [List.drop_one, List.tail_cons]
            exact hr2

/-- Witness for C4's amended theorem: applying it with the methodology file
missing shows the run is terminal at once — one unexpected-error log entry,
no assistant call, no retry. -/
theorem main_retry_policy_witness :
    mainModel "c" "d" ⟨none, none, none⟩ (fun _ => envCliFails) =
      ⟨false, [⟨false, some .unexpected, none⟩], [], false, []⟩ :=
  (main_retry_policy "c" "d" ⟨none, none, none⟩ (fun _ => envCliFails)).2.1 rfl

/-! ## C5 — response extraction -/

/-- C5 counterexample: extraction spans from the first `{` to the *last*
`}` of the whole output, not the first balanced `{...}` span.  On an
output holding two complete objects the claimed semantics
(`specParseResponse`, the spec's words) parses the first object, while
`parse_claude_response` hands `json.loads` the text of both objects and
fails with `None`.  (The spec's own single-object example still parses.) -/
theorem parse_two_objects_not_first_balanced :
    parse_claude_response twoObjectsResponse = none ∧
    specParseResponse twoObjectsResponse = some (.obj [("a", .num "1")]) ∧
    parse_claude_response exampleResponse = some (.obj [("title", .str "X")]) :=
  ⟨rfl, rfl, rfl⟩

theorem mem_of_mem_dropWhile {p : Char → Bool} {l : List Char} {a : Char}
    (h : a ∈ l.dropWhile p) : a ∈ l := by
  induction l with
  | nil => exact h
  | cons b t ih =>
    rw [List.dropWhile_cons] at h
    split at h
    · exact List.mem_cons_of_mem b (ih h)
    · exact h

theorem mem_of_mem_rdropWhile {p : Char → Bool} {l : List Char} {a : Char}
    (h : a ∈ l.rdropWhile p) : a ∈ l := by
  rw [List.rdropWhile] at h
  rw [List.mem_reverse] at h
  exact (List.mem_reverse).mp (mem_of_mem_dropWhile h)

theorem mem_of_mem_trimChars {l : List Char} {a : Char} (h : a ∈ trimChars l) : a ∈ l :=
  mem_of_mem_dropWhile (mem_of_mem_rdropWhile h)

theorem dropWhile_head_stop {p : Char → Bool} {l : List Char} {c : Char}
    (h : l.head? = some c) (hc : p c = false) : l.dropWhile p = l := by
  cases l with
  | nil => cases h
  | cons a t =>
    rw [List.head?_cons, Option.some_inj] at h
    subst h
    rw [List.dropWhile_cons, if_neg (by simp [hc])]

theorem dropWhile_append_stop (p : Char → Bool) (l1 l2 : List Char) (c : Char)
    (h2 : l2.head? = some c) (hc : p c = false) :
    (l1 ++ l2).dropWhile p = l1.dropWhile p ++ l2 := by
  rw [List.dropWhile_append]
  split
  · next h =>
    rw [List.isEmpty_iff] at h
    rw [h, List.nil_append, dropWhile_head_stop h2 hc]
  · rfl

theorem trimChars_decomp {pre obj post : List Char} {c0 c1 : Char}
    (hh : obj.head? = some c0) (h0 : c0.isWhitespace = false)
    (hl : obj.getLast? = some c1) (h1 : c1.isWhitespace = false) :
    ∃ pre2 post2, trimChars (pre ++ obj ++ post) = pre2 ++ obj ++ post2 ∧
      (∀ a ∈ pre2, a ∈ pre) ∧ (∀ a ∈ post2, a ∈ post) := by
  refine ⟨pre.dropWhile Char.isWhitespace,
    (post.reverse.dropWhile Char.isWhitespace).reverse, ?_, ?_, ?_⟩
  · have hR : obj.reverse.head? = some c1 := by
      rw [List.head?_reverse]
      exact hl
    have step1 : (pre ++ obj ++ post).dropWhile Char.isWhitespace =
        pre.dropWhile Char.isWhitespace ++ (obj ++ post) := by
      rw [List.append_assoc]
      refine dropWhile_append_stop _ _ _ _ ?_ h0
      cases obj with
      | nil => cases hh
      | cons a t =>
        rw [List.head?_cons, Option.some_inj] at hh
        subst hh
        rfl
    rw [trimChars, step1, List.rdropWhile, ← List.append_assoc, List.reverse_append,
      List.reverse_append]
    rw [dropWhile_append_stop Char.isWhitespace post.reverse
      (obj.reverse ++ (pre.dropWhile Char.isWhitespace).reverse) c1 ?_ h1]
    · rw [List.reverse_append, List.reverse_append, List.reverse_reverse,
        List.reverse_reverse, List.append_assoc]
    · cases hr : obj.reverse with
      | nil => rw [hr] at hR; cases hR
      | cons a t =>
        rw [hr] at hR
        rw [List.head?_cons, Option.some_inj] at hR
        subst hR
        rfl
  · intro a ha
    exact mem_of_mem_dropWhile ha
  · intro a ha
    rw [List.mem_reverse] at ha
    exact (List.mem_reverse).mp (mem_of_mem_dropWhile ha)

theorem braceSpan_mid {pre obj post : List Char}
    (hpre : ∀ a ∈ pre, a ≠ '{') (hpost : ∀ a ∈ post, a ≠ '}')
    (hh : obj.head? = some '{') (hl : obj.getLast? = some '}') :
    braceSpan (pre ++ obj ++ post) = obj := by
  have hR : obj.reverse.head? = some '}' := by
    rw [List.head?_reverse]
    exact hl
  have step1 : (pre ++ obj ++ post).dropWhile (fun c => c ≠ '{') = obj ++ post := by
    rw [List.append_assoc]
    rw [dropWhile_append_stop (fun c => c ≠ '{') pre (obj ++ post) '{' ?_ (by simp)]
    · rw [List.dropWhile_eq_nil_iff.mpr ?_, List.nil_append]
      intro a ha
      simp [hpre a ha]
    · cases obj with
      | nil => cases hh
      | cons a t =>
        rw [List.head?_cons, Option.some_inj] at hh
        subst hh
        rfl
  rw [braceSpan, step1, List.rdropWhile, List.reverse_append]
  rw [dropWhile_append_stop (fun c => c ≠ '}') post.reverse obj.reverse '}' ?_ (by simp)]
  · rw [List.dropWhile_eq_nil_iff.mpr ?_, List.nil_append, List.reverse_reverse]
    intro a ha
    rw [List.mem_reverse] at ha
    simp [hpost a ha]
  · exact hR

/-- C5 amended: parsing strips the response, takes the span from the first
`{` through the last `}`, and hands it to `json.loads`: an output whose
sole braced span is a well-formed JSON object surrounded by junk with no
further braces parses to that object, and an output with no `{` anywhere,
or no `}` anywhere, yields `None`. -/
theorem parse_response_first_to_last_brace :
    (∀ (pre obj post : List Char) (v : Json),
      (∀ c ∈ pre, c ≠ '{') → (∀ c ∈ post, c ≠ '}') →
      obj.head? = some '{' → obj.getLast? = some '}' →
      jsonParseChars obj = some v →
      parseClaudeResponseChars (pre ++ obj ++ post) = some v) ∧
    (∀ s : String, (∀ c ∈ s.data, c ≠ '{') → parse_claude_response s = none) ∧
    (∀ s : String, (∀ c ∈ s.data, c ≠ '}') → parse_claude_response s = none) := by
  refine ⟨?_, ?_, ?_⟩
  · intro pre obj post v hpre hpost hh hl hv
    obtain ⟨pre2, post2, htrim, hpre2, hpost2⟩ :=
      trimChars_decomp hh (by simp) hl (by simp)
    rw [parseClaudeResponseChars, htrim,
      braceSpan_mid (fun a ha => hpre a (hpre2 a ha)) (fun a ha => hpost a (hpost2 a ha))
        hh hl, hv]
  · intro s hs
    rw [parse_claude_response, parseClaudeResponseChars, braceSpan,
      List.dropWhile_eq_nil_iff.mpr ?_]
    · rfl
    · intro a ha
      simp [hs a (mem_of_mem_trimChars ha)]
  · intro s hs
    rw [parse_claude_response, parseClaudeResponseChars, braceSpan,
      List.rdropWhile_eq_nil_iff.mpr ?_]
    · rfl
    · intro a ha
      simp [hs a (mem_of_mem_trimChars (mem_of_mem_dropWhile ha))]

/-- Witness for C5's amended theorem: the spec's own example input, plus
brace-free and closing-brace-free inputs. -/
theorem parse_response_first_to_last_brace_witness :
    parseClaudeResponseChars ("blah blah ".data ++ "\x7b\"title\":\"X\"\x7d".data ++
      " trailing".data) = some (.obj [("title", .str "X")]) ∧
    parse_claude_response "no braces here" = none ∧
    parse_claude_response "open \x7b only" = none :=
  ⟨parse_response_first_to_last_brace.1 _ _ _ _ (by decide) (by decide) rfl rfl rfl,
   parse_response_first_to_last_brace.2.1 _ (by decide),
   parse_response_first_to_last_brace.2.2 _ (by decide)⟩
